import Mathlib

/-!
Shallow embedding of `user_data_validator.py`: the rule model, the field
evaluator (`validate_field`), the record validator (`validate_data`) and the
case generator (`generate_test_cases`), together with theorems settling the
specification claims about them.

Python values flowing through the validator are one of: text, whole number,
boolean, or the `None` placeholder.  They are modelled as a tagged union.
A crucial Python fact is modelled faithfully: `bool` is a subclass of `int`,
so `isinstance(value, int)` is `True` for booleans, and booleans compare
numerically (`True == 1`, `False == 0`).
-/

inductive Value where
  | str (s : String)
  | int (n : Int)
  | bool (b : Bool)
  | null
deriving DecidableEq

/-- Python `isinstance(value, str)`. -/
def isinstance_str : Value → Bool
  | .str _ => true
  | _ => false

/-- Python `isinstance(value, int)`: true for ints AND for booleans, because
`bool` is a subclass of `int` in Python. -/
def isinstance_int : Value → Bool
  | .int _ => true
  | .bool _ => true
  | _ => false

/-- Python `isinstance(value, bool)`. -/
def isinstance_bool : Value → Bool
  | .bool _ => true
  | _ => false

/-- The numeric value a Python int-or-bool carries in comparisons
(`True` is 1, `False` is 0); only consulted under `isinstance_int`. -/
def pyIntValue : Value → Int
  | .int n => n
  | .bool b => if b then 1 else 0
  | _ => 0

/-- Python `==` between the supported scalar values: strings compare as
strings, `None` equals only `None`, and ints and booleans compare
numerically with each other. -/
def pyEq (a b : Value) : Bool :=
  match a, b with
  | .str s, .str t => s == t
  | .null, .null => true
  | .int x, .int y => x == y
  | .int x, .bool y => x == (if y then 1 else 0)
  | .bool x, .int y => (if x then (1 : Int) else 0) == y
  | .bool x, .bool y => x == y
  | _, _ => false

/-!
A small regular-expression language sufficient for the patterns at issue:
literal characters, concatenation, alternation, the any-character dot and the
`^` start-of-string anchor.  `matchEnds r s i` returns the positions at which
a match of `r` beginning at position `i` of `s` can end.  Python's
`re.match(pattern, value)` attempts a match only at position 0 (it succeeds
iff `matchEnds` at 0 is nonempty); it never scans forward the way
`re.search` does.
-/

inductive Regex where
  | epsilon
  | char (c : Char)
  | dot
  | seq (a b : Regex)
  | alt (a b : Regex)
  | caret
deriving DecidableEq

def matchEnds : Regex → List Char → Nat → List Nat
  | .epsilon, _, i => [i]
  | .char c, s, i =>
    match s.get? i with
    | some d => if c = d then [i + 1] else []
    | none => []
  | .dot, s, i =>
    match s.get? i with
    | some _ => [i + 1]
    | none => []
  | .seq a b, s, i => (matchEnds a s i).flatMap (fun j => matchEnds b s j)
  | .alt a b, s, i => matchEnds a s i ++ matchEnds b s i
  | .caret, _, i => if i = 0 then [i] else []

/-- Python `re.match(pattern, value)` viewed as a boolean: a match is
attempted only at position 0 of the string. -/
def re_match (r : Regex) (s : String) : Bool :=
  !(matchEnds r s.data 0).isEmpty

/-- One field's rule spec: a Python dict with these optional keys.
`none` models the key's absence. -/
structure RuleSpec where
  type : Option String := none
  min_length : Option Int := none
  max_length : Option Int := none
  pattern : Option Regex := none
  enum : Option (List Value) := none
  minimum : Option Int := none
  maximum : Option Int := none
deriving DecidableEq

/-- A single quote character, as Python `repr` puts around strings. -/
def quoteCh : String := "\x27"

/-- Python `repr` of a supported scalar (as interpolated into the enum
message by the f-string). -/
def pyReprVal : Value → String
  | .str s => quoteCh ++ s ++ quoteCh
  | .int n => toString n
  | .bool true => "True"
  | .bool false => "False"
  | .null => "None"

/-- Python `repr` of a list, as an f-string renders `spec['enum']`. -/
def pyReprList (es : List Value) : String :=
  "[" ++ String.intercalate ", " (es.map pyReprVal) ++ "]"

/-!
The seven constraint checks of `validate_field`, one definition per source
block (lines 12-46 of `user_data_validator.py`).  Each block inspects only
`field`, `value` and `spec` and appends its messages (zero or one) to the
accumulated error list, so each is a function returning the block's own
messages.
-/

/-- Lines 12-22: the type check.  Dispatches on `spec['type']`; an
unrecognized tag performs no check. -/
def checkType (field : String) (value : Value) (spec : RuleSpec) : List String :=
  match spec.type with
  | some t =>
    if t = "string" then
      if !isinstance_str value then [s!"{field} should be a string."] else []
    else if t = "integer" then
      if !isinstance_int value then [s!"{field} should be an integer."] else []
    else if t = "boolean" then
      if !isinstance_bool value then [s!"{field} should be a boolean."] else []
    else []
  | none => []

/-- Lines 24-26: `'min_length' in spec and isinstance(value, str)` guard,
then `len(value) < spec['min_length']`. -/
def checkMinLength (field : String) (value : Value) (spec : RuleSpec) : List String :=
  match spec.min_length, value with
  | some m, .str s =>
    if (s.length : Int) < m then [s!"{field} should be at least {m} characters."] else []
  | _, _ => []

/-- Lines 28-30: the max_length check, string-guarded. -/
def checkMaxLength (field : String) (value : Value) (spec : RuleSpec) : List String :=
  match spec.max_length, value with
  | some m, .str s =>
    if (s.length : Int) > m then [s!"{field} should be at most {m} characters."] else []
  | _, _ => []

/-- Lines 32-34: the pattern check, string-guarded; `re.match` anchors at
position 0. -/
def checkPattern (field : String) (value : Value) (spec : RuleSpec) : List String :=
  match spec.pattern, value with
  | some r, .str s =>
    if !re_match r s then [s!"{field} does not match required pattern."] else []
  | _, _ => []

/-- Lines 36-38: the enum membership check (no type guard); Python
`value not in spec['enum']` tests `==` against each element. -/
def checkEnum (field : String) (value : Value) (spec : RuleSpec) : List String :=
  match spec.enum with
  | some es =>
    if !(es.any (fun e => pyEq value e)) then
      let rendered := pyReprList es
      [s!"{field} must be one of {rendered}."]
    else []
  | none => []

/-- Lines 40-42: `'minimum' in spec and isinstance(value, int)` guard — the
guard also admits booleans — then `value < spec['minimum']`. -/
def checkMinimum (field : String) (value : Value) (spec : RuleSpec) : List String :=
  match spec.minimum with
  | some m =>
    if isinstance_int value then
      if pyIntValue value < m then [s!"{field} must be at least {m}."] else []
    else []
  | none => []

/-- Lines 44-46: the maximum check, int-guarded (booleans included). -/
def checkMaximum (field : String) (value : Value) (spec : RuleSpec) : List String :=
  match spec.maximum with
  | some m =>
    if isinstance_int value then
      if pyIntValue value > m then [s!"{field} must be at most {m}."] else []
    else []
  | none => []

/-- Lines 9-48, `validate_field(field, value, spec)`: starts with an empty
error list and lets each constraint block append its messages in source
order. -/
def validate_field (field : String) (value : Value) (spec : RuleSpec) : List String :=
  let errors : List String := []
  let errors := errors ++ checkType field value spec
  let errors := errors ++ checkMinLength field value spec
  let errors := errors ++ checkMaxLength field value spec
  let errors := errors ++ checkPattern field value spec
  let errors := errors ++ checkEnum field value spec
  let errors := errors ++ checkMinimum field value spec
  let errors := errors ++ checkMaximum field value spec
  errors

/-- A record: Python dict from field name to value, in insertion order. -/
abbrev Record := List (String × Value)

/-- A schema: `properties` (field name to rule spec, in declaration order)
and `required` (list of field names). -/
structure Schema where
  properties : List (String × RuleSpec) := []
  required : List String := []

/-- The body of the loop of `validate_data` (lines 53-58) for one declared
field: a missing field yields the required message exactly when the
`required` list is truthy (nonempty) and contains the field, and no rule
checks run; a present field yields `validate_field`'s messages. -/
def fieldContribution (schema : Schema) (user_data : Record) (p : String × RuleSpec) : List String :=
  match List.lookup p.1 user_data with
  | none =>
    if !schema.required.isEmpty && schema.required.contains p.1 then
      let field := p.1
      [s!"{field} is required."]
    else []
  | some v => validate_field p.1 v p.2

/-- Lines 50-59, `validate_data(schema, user_data)`: iterate the declared
properties in order, extending the error list with each field's
contribution. -/
def validate_data (schema : Schema) (user_data : Record) : List String :=
  schema.properties.flatMap (fieldContribution schema user_data)

/-!
The case generator, `generate_test_cases` (lines 61-106).  Unlike
`validate_field`/`validate_data`, it reads `spec['type']` without first
testing for the key, and indexes `spec['enum'][0]`; those raw accesses can
raise, so the generator is embedded in `Except String`, erroring exactly
where the Python raises.
-/

/-- The raw dict access `spec['type']`: raises `KeyError` when absent. -/
def specType (spec : RuleSpec) : Except String String :=
  match spec.type with
  | some t => Except.ok t
  | none => Except.error "KeyError: type"

/-- Python `"x" * n` (empty for non-positive n). -/
def xRepeat (m : Int) : String :=
  String.mk (List.replicate m.toNat 'x')

/-- Lines 67-79: the baseline value synthesized for one field's spec. -/
def baselineValue (spec : RuleSpec) : Except String Value := do
  let t ← specType spec
  if t = "string" then
    match spec.enum with
    | some es =>
      match es with
      | v :: _ => pure v
      | [] => Except.error "IndexError: enum"
    | none =>
      match spec.min_length with
      | some m => pure (.str (xRepeat m))
      | none => pure (.str "test")
  else if t = "integer" then
    pure (.int (spec.minimum.getD 0))
  else if t = "boolean" then
    pure (.bool true)
  else
    pure .null

/-- Lines 65-79: build the baseline valid record, one entry per declared
field in declaration order. -/
def buildValidCase : List (String × RuleSpec) → Except String Record
  | [] => Except.ok []
  | (f, spec) :: rest => do
    let v ← baselineValue spec
    let tail ← buildValidCase rest
    Except.ok ((f, v) :: tail)

/-- Python dict item assignment `d[f] = v`: replaces the value of an
existing key in place, else appends a new entry. -/
def dictSet (r : Record) (f : String) (v : Value) : Record :=
  if r.any (fun p => p.1 = f) then
    r.map (fun p => if p.1 = f then (f, v) else p)
  else
    r ++ [(f, v)]

/-- Lines 84-105: the invalid variants derived for one declared field with
type tag `t`, each a copy of the baseline with only that field overwritten,
in the source's rule-key order. -/
def variantCases (valid : Record) (f : String) (spec : RuleSpec) (t : String) : List (String × Record) :=
  let stringCases :=
    if t = "string" then
      (match spec.min_length with
       | some _ => [(s!"{f}: too short", dictSet valid f (.str ""))]
       | none => []) ++
      (match spec.pattern with
       | some _ => [(s!"{f}: invalid pattern", dictSet valid f (.str "invalid"))]
       | none => [])
    else []
  let intCases :=
    if t = "integer" then
      (match spec.minimum with
       | some m => [(s!"{f}: below minimum", dictSet valid f (.int (m - 1)))]
       | none => []) ++
      (match spec.maximum with
       | some m => [(s!"{f}: above maximum", dictSet valid f (.int (m + 1)))]
       | none => [])
    else []
  let enumCases :=
    match spec.enum with
    | some _ => [(s!"{f}: not in enum", dictSet valid f (.str "not-in-enum"))]
    | none => []
  stringCases ++ intCases ++ enumCases

/-- Lines 84-105 again read `spec['type']` raw before deriving the field's
variants. -/
def variantsFor (valid : Record) (f : String) (spec : RuleSpec) : Except String (List (String × Record)) := do
  let t ← specType spec
  Except.ok (variantCases valid f spec t)

/-- Lines 83-105: the variant cases for every declared field, in
declaration order. -/
def buildVariants (valid : Record) : List (String × RuleSpec) → Except String (List (String × Record))
  | [] => Except.ok []
  | (f, spec) :: rest => do
    let cs ← variantsFor valid f spec
    let tail ← buildVariants valid rest
    Except.ok (cs ++ tail)

/-- Lines 61-106, `generate_test_cases(schema)`: the baseline valid case
first, then the per-field invalid variants. -/
def generate_test_cases (schema : Schema) : Except String (List (String × Record)) := do
  let valid ← buildValidCase schema.properties
  let variants ← buildVariants valid schema.properties
  Except.ok (("Valid case", valid) :: variants)

/-!
Violation conditions, one per constraint check, stated directly on the value
and the spec.  They let the rule-independence claim relate the number of
messages `validate_field` emits to the number of violated constraints.
-/

def typeViolatedB (v : Value) (s : RuleSpec) : Bool :=
  match s.type with
  | some t =>
    (t == "string" && !isinstance_str v) ||
    (t == "integer" && !isinstance_int v) ||
    (t == "boolean" && !isinstance_bool v)
  | none => false

def minLengthViolatedB (v : Value) (s : RuleSpec) : Bool :=
  match s.min_length, v with
  | some m, .str str => decide ((str.length : Int) < m)
  | _, _ => false

def maxLengthViolatedB (v : Value) (s : RuleSpec) : Bool :=
  match s.max_length, v with
  | some m, .str str => decide ((str.length : Int) > m)
  | _, _ => false

def patternViolatedB (v : Value) (s : RuleSpec) : Bool :=
  match s.pattern, v with
  | some r, .str str => !re_match r str
  | _, _ => false

def enumViolatedB (v : Value) (s : RuleSpec) : Bool :=
  match s.enum with
  | some es => !(es.any (fun e => pyEq v e))
  | none => false

def minimumViolatedB (v : Value) (s : RuleSpec) : Bool :=
  match s.minimum with
  | some m => isinstance_int v && decide (pyIntValue v < m)
  | none => false

def maximumViolatedB (v : Value) (s : RuleSpec) : Bool :=
  match s.maximum with
  | some m => isinstance_int v && decide (pyIntValue v > m)
  | none => false

/-- `validate_field` is the concatenation of its seven constraint blocks in
source order. -/
lemma validate_field_eq (f : String) (v : Value) (s : RuleSpec) :
    validate_field f v s =
      checkType f v s ++ checkMinLength f v s ++ checkMaxLength f v s ++
      checkPattern f v s ++ checkEnum f v s ++ checkMinimum f v s ++
      checkMaximum f v s := by
  simp [validate_field, List.append_assoc]

lemma length_checkType (f : String) (v : Value) (s : RuleSpec) :
    (checkType f v s).length = cond (typeViolatedB v s) 1 0 := by
  unfold checkType typeViolatedB
  rcases s.type with _ | t
  · rfl
  · by_cases h1 : t = "string"
    · subst h1; cases hv : isinstance_str v <;> simp [hv]
    · by_cases h2 : t = "integer"
      · subst h2; cases hv : isinstance_int v <;> simp [hv]
      · by_cases h3 : t = "boolean"
        · subst h3; cases hv : isinstance_bool v <;> simp [hv]
        · have e1 : (t == "string") = false := beq_eq_false_iff_ne.mpr h1
          have e2 : (t == "integer") = false := beq_eq_false_iff_ne.mpr h2
          have e3 : (t == "boolean") = false := beq_eq_false_iff_ne.mpr h3
          simp [h1, h2, h3, e1, e2, e3]

lemma length_checkMinLength (f : String) (v : Value) (s : RuleSpec) :
    (checkMinLength f v s).length = cond (minLengthViolatedB v s) 1 0 := by
  unfold checkMinLength minLengthViolatedB
  rcases s.min_length with _ | m
  · cases v <;> rfl
  · cases v with
    | str t =>
      by_cases h : (t.length : Int) < m
      · simp [h]
      · simp [h]
    | int n => rfl
    | bool b => rfl
    | null => rfl

lemma length_checkMaxLength (f : String) (v : Value) (s : RuleSpec) :
    (checkMaxLength f v s).length = cond (maxLengthViolatedB v s) 1 0 := by
  unfold checkMaxLength maxLengthViolatedB
  rcases s.max_length with _ | m
  · cases v <;> rfl
  · cases v with
    | str t =>
      by_cases h : (t.length : Int) > m
      · simp [h]
      · simp [h]
    | int n => rfl
    | bool b => rfl
    | null => rfl

lemma length_checkPattern (f : String) (v : Value) (s : RuleSpec) :
    (checkPattern f v s).length = cond (patternViolatedB v s) 1 0 := by
  unfold checkPattern patternViolatedB
  rcases s.pattern with _ | r
  · cases v <;> rfl
  · cases v with
    | str t => cases h : re_match r t <;> simp [h]
    | int n => rfl
    | bool b => rfl
    | null => rfl

lemma length_checkEnum (f : String) (v : Value) (s : RuleSpec) :
    (checkEnum f v s).length = cond (enumViolatedB v s) 1 0 := by
  unfold checkEnum enumViolatedB
  rcases s.enum with _ | es
  · rfl
  · cases h : es.any (fun e => pyEq v e) <;> simp [h]

lemma length_checkMinimum (f : String) (v : Value) (s : RuleSpec) :
    (checkMinimum f v s).length = cond (minimumViolatedB v s) 1 0 := by
  unfold checkMinimum minimumViolatedB
  rcases s.minimum with _ | m
  · rfl
  · cases hv : isinstance_int v
    · simp [hv]
    · by_cases h : pyIntValue v < m
      · simp [hv, h]
      · simp [hv, h]

lemma length_checkMaximum (f : String) (v : Value) (s : RuleSpec) :
    (checkMaximum f v s).length = cond (maximumViolatedB v s) 1 0 := by
  unfold checkMaximum maximumViolatedB
  rcases s.maximum with _ | m
  · rfl
  · cases hv : isinstance_int v
    · simp [hv]
    · by_cases h : pyIntValue v > m
      · simp [hv, h]
      · simp [hv, h]

/-!
Guard lemmas: each string-guarded (resp. int-guarded) check is silent when
the value's kind fails its guard.
-/

lemma checkMinLength_nil (f : String) (v : Value) (s : RuleSpec)
    (h : isinstance_str v = false) : checkMinLength f v s = [] := by
  unfold checkMinLength
  rcases s.min_length with _ | m <;> cases v <;> simp_all [isinstance_str]

lemma checkMaxLength_nil (f : String) (v : Value) (s : RuleSpec)
    (h : isinstance_str v = false) : checkMaxLength f v s = [] := by
  unfold checkMaxLength
  rcases s.max_length with _ | m <;> cases v <;> simp_all [isinstance_str]

lemma checkPattern_nil (f : String) (v : Value) (s : RuleSpec)
    (h : isinstance_str v = false) : checkPattern f v s = [] := by
  unfold checkPattern
  rcases s.pattern with _ | r <;> cases v <;> simp_all [isinstance_str]

lemma checkMinimum_nil (f : String) (v : Value) (s : RuleSpec)
    (h : isinstance_int v = false) : checkMinimum f v s = [] := by
  unfold checkMinimum
  rcases s.minimum with _ | m <;> simp_all

lemma checkMaximum_nil (f : String) (v : Value) (s : RuleSpec)
    (h : isinstance_int v = false) : checkMaximum f v s = [] := by
  unfold checkMaximum
  rcases s.maximum with _ | m <;> simp_all

lemma checkType_nil_of_none (f : String) (v : Value) (s : RuleSpec)
    (h : s.type = none) : checkType f v s = [] := by
  unfold checkType
  rw [h]

/-- Claim C1: the type check for `type: integer` does NOT reject
boolean-kind values — `isinstance(value, int)` is `True` for Python
booleans, so `validate_field` returns no message at all, contrary to the
spec's boolean/integer disjointness contract. -/
theorem validate_field_accepts_boolean_as_integer :
    validate_field "age" (.bool true) { type := some "integer" } = [] ∧
    validate_field "flag" (.bool false) { type := some "integer" } = [] :=
  ⟨rfl, rfl⟩

/-- The spec's example schema: name is a string of min_length 2 and is
required; age is an integer in [0, 120]. -/
def exampleSchema : Schema :=
  { properties :=
      [("name", { type := some "string", min_length := some 2 }),
       ("age", { type := some "integer", minimum := some 0, maximum := some 120 })],
    required := ["name"] }

/-- Claim C4: the three example scenario inputs produce exactly the
outputs the spec lists. -/
theorem example_scenario_outputs :
    validate_data exampleSchema [("name", .str "Al"), ("age", .int 30)] = [] ∧
    validate_data exampleSchema [("age", .int 200)] =
      ["name is required.", "age must be at most 120."] ∧
    validate_data exampleSchema [("name", .str "A"), ("age", .int (-1))] =
      ["name should be at least 2 characters.", "age must be at least 0."] :=
  ⟨rfl, rfl, rfl⟩

/-- Claim C6: `validate_field` emits the checks' messages in the fixed
source order type, min_length, max_length, pattern, enum, minimum, maximum,
and the number of messages equals the number of independently violated
constraints (one message per violated constraint, no short-circuiting). -/
theorem rule_independence_fixed_order (f : String) (v : Value) (s : RuleSpec) :
    validate_field f v s =
      checkType f v s ++ checkMinLength f v s ++ checkMaxLength f v s ++
      checkPattern f v s ++ checkEnum f v s ++ checkMinimum f v s ++
      checkMaximum f v s ∧
    (validate_field f v s).length =
      cond (typeViolatedB v s) 1 0 + cond (minLengthViolatedB v s) 1 0 +
      cond (maxLengthViolatedB v s) 1 0 + cond (patternViolatedB v s) 1 0 +
      cond (enumViolatedB v s) 1 0 + cond (minimumViolatedB v s) 1 0 +
      cond (maximumViolatedB v s) 1 0 := by
  refine ⟨validate_field_eq f v s, ?_⟩
  rw [validate_field_eq]
  simp only [List.length_append, length_checkType, length_checkMinLength,
    length_checkMaxLength, length_checkPattern, length_checkEnum,
    length_checkMinimum, length_checkMaximum]

/-- Claim C3 counterexample: the minimum check fires on a boolean-kind
value (Python booleans pass `isinstance(value, int)` and compare as 1/0),
so the numeric checks are NOT restricted to non-boolean integers. -/
theorem minimum_check_fires_on_boolean_value :
    validate_field "age" (.bool true) { minimum := some 5 } =
      ["age must be at least 5."] :=
  rfl

/-- Claim C3 (amended): the min_length, max_length and pattern checks
produce a violation only when the value's kind is string, and the minimum
and maximum checks only when the value passes Python's integer test —
which admits booleans as well as integers; when a kind guard fails the
check yields no violation (and, the embedding being total, no exception). -/
theorem type_guards_of_checks (f : String) (v : Value) (s : RuleSpec) :
    (isinstance_str v = false →
      checkMinLength f v s = [] ∧ checkMaxLength f v s = [] ∧
      checkPattern f v s = []) ∧
    (isinstance_int v = false →
      checkMinimum f v s = [] ∧ checkMaximum f v s = []) ∧
    (checkMinLength f v s ≠ [] ∨ checkMaxLength f v s ≠ [] ∨
      checkPattern f v s ≠ [] → isinstance_str v = true) ∧
    (checkMinimum f v s ≠ [] ∨ checkMaximum f v s ≠ [] →
      isinstance_int v = true) ∧
    (isinstance_str v = false → isinstance_int v = false →
      validate_field f v s = checkType f v s ++ checkEnum f v s) := by
  refine ⟨?_, ?_, ?_, ?_, ?_⟩
  · intro h
    exact ⟨checkMinLength_nil f v s h, checkMaxLength_nil f v s h,
      checkPattern_nil f v s h⟩
  · intro h
    exact ⟨checkMinimum_nil f v s h, checkMaximum_nil f v s h⟩
  · intro h
    cases hs : isinstance_str v
    · rcases h with h | h | h
      · exact absurd (checkMinLength_nil f v s hs) h
      · exact absurd (checkMaxLength_nil f v s hs) h
      · exact absurd (checkPattern_nil f v s hs) h
    · rfl
  · intro h
    cases hi : isinstance_int v
    · rcases h with h | h
      · exact absurd (checkMinimum_nil f v s hi) h
      · exact absurd (checkMaximum_nil f v s hi) h
    · rfl
  · intro hs hi
    rw [validate_field_eq, checkMinLength_nil f v s hs, checkMaxLength_nil f v s hs,
      checkPattern_nil f v s hs, checkMinimum_nil f v s hi, checkMaximum_nil f v s hi]
    simp

/-- Witness for the amended Claim C3 theorem at a concrete input. -/
theorem type_guards_of_checks_applied :
    (isinstance_str Value.null = false →
      checkMinLength "f" Value.null { min_length := some 2 } = [] ∧
      checkMaxLength "f" Value.null { min_length := some 2 } = [] ∧
      checkPattern "f" Value.null { min_length := some 2 } = []) ∧
    (isinstance_int Value.null = false →
      checkMinimum "f" Value.null { min_length := some 2 } = [] ∧
      checkMaximum "f" Value.null { min_length := some 2 } = []) ∧
    (checkMinLength "f" Value.null { min_length := some 2 } ≠ [] ∨
      checkMaxLength "f" Value.null { min_length := some 2 } ≠ [] ∨
      checkPattern "f" Value.null { min_length := some 2 } ≠ [] →
      isinstance_str Value.null = true) ∧
    (checkMinimum "f" Value.null { min_length := some 2 } ≠ [] ∨
      checkMaximum "f" Value.null { min_length := some 2 } ≠ [] →
      isinstance_int Value.null = true) ∧
    (isinstance_str Value.null = false → isinstance_int Value.null = false →
      validate_field "f" Value.null { min_length := some 2 } =
        checkType "f" Value.null { min_length := some 2 } ++
        checkEnum "f" Value.null { min_length := some 2 }) :=
  type_guards_of_checks "f" Value.null { min_length := some 2 }

/-- Claim C8: an unrecognized type tag produces no type violation and
leaves every other check unchanged — `validate_field` behaves exactly as if
the `type` key were absent. -/
theorem unrecognized_type_skips_type_check (f : String) (v : Value)
    (s : RuleSpec) (t : String) (ht : s.type = some t)
    (h1 : t ≠ "string") (h2 : t ≠ "integer") (h3 : t ≠ "boolean") :
    checkType f v s = [] ∧
    validate_field f v s = validate_field f v { s with type := none } := by
  have hct : checkType f v s = [] := by
    unfold checkType
    rw [ht]
    simp [h1, h2, h3]
  refine ⟨hct, ?_⟩
  rw [validate_field_eq, validate_field_eq, hct,
    checkType_nil_of_none f v { s with type := none } rfl]
  rfl

/-- Witness for Claim C8 at the concrete unrecognized tag "date". -/
theorem unrecognized_type_skips_type_check_applied :
    checkType "when" (.int 3) { type := some "date", minimum := some 5 } = [] ∧
    validate_field "when" (.int 3) { type := some "date", minimum := some 5 } =
      validate_field "when" (.int 3)
        { ({ type := some "date", minimum := some 5 } : RuleSpec) with type := none } :=
  unrecognized_type_skips_type_check "when" (.int 3) _ "date" rfl
    (by decide) (by decide) (by decide)

/-- Claim C7: the pattern check passes exactly when the pattern matches
starting at position 0 of the string; `"^A"` against `"xA"` yields the
violation, and the unanchored pattern `"A"` — which matches `"xA"` at
position 1 — still yields the violation because `re.match` never tries
later start positions. -/
theorem pattern_matching_anchored_at_start :
    (∀ (f v : String) (s : RuleSpec) (r : Regex), s.pattern = some r →
      (checkPattern f (.str v) s = [] ↔ matchEnds r v.data 0 ≠ [])) ∧
    validate_field "f" (.str "xA") { pattern := some (.seq .caret (.char 'A')) } =
      ["f does not match required pattern."] ∧
    validate_field "f" (.str "xA") { pattern := some (.char 'A') } =
      ["f does not match required pattern."] ∧
    matchEnds (.char 'A') "xA".data 1 = [2] := by
  refine ⟨?_, rfl, rfl, rfl⟩
  intro f v s r hr
  unfold checkPattern
  rw [hr]
  by_cases h : matchEnds r v.data 0 = [] <;> simp [re_match, h]

/-- Witness for the universally quantified part of Claim C7. -/
theorem pattern_anchoring_applied :
    checkPattern "f" (.str "Abc") { pattern := some (.seq .caret (.char 'A')) } = [] ↔
      matchEnds (.seq .caret (.char 'A')) "Abc".data 0 ≠ [] :=
  pattern_matching_anchored_at_start.1 "f" "Abc" _ _ rfl

/-- Claim C5: a declared field absent from the record contributes exactly
the required-field message when it is in the required list — and that
message appears in `validate_data`'s output — and contributes nothing at
all otherwise; in neither case does any rule check run for it. -/
theorem required_field_completeness (schema : Schema) (r : Record)
    (f : String) (spec : RuleSpec)
    (hmem : (f, spec) ∈ schema.properties) (habs : List.lookup f r = none) :
    (f ∈ schema.required →
      fieldContribution schema r (f, spec) = [s!"{f} is required."] ∧
      s!"{f} is required." ∈ validate_data schema r) ∧
    (f ∉ schema.required → fieldContribution schema r (f, spec) = []) := by
  constructor
  · intro hreq
    have hne : schema.required.isEmpty = false := by
      rcases hl : schema.required with _ | ⟨a, as⟩
      · rw [hl] at hreq; cases hreq
      · rfl
    have hc : fieldContribution schema r (f, spec) = [s!"{f} is required."] := by
      simp [fieldContribution, habs, hne, List.elem_iff, hreq]
    refine ⟨hc, ?_⟩
    unfold validate_data
    rw [List.mem_flatMap]
    exact ⟨(f, spec), hmem, by rw [hc]; exact List.mem_singleton.mpr rfl⟩
  · intro hnreq
    simp [fieldContribution, habs, List.elem_iff, hnreq]

/-- Witness for Claim C5: `name` is required and absent; `age` declared but
not required and absent. -/
theorem required_field_completeness_applied :
    (("name" ∈ exampleSchema.required →
      fieldContribution exampleSchema [] ("name", { type := some "string", min_length := some 2 }) =
        ["name is required."] ∧
      "name is required." ∈ validate_data exampleSchema []) ∧
    ("name" ∉ exampleSchema.required →
      fieldContribution exampleSchema [] ("name", { type := some "string", min_length := some 2 }) = [])) ∧
    (("age" ∈ exampleSchema.required →
      fieldContribution exampleSchema []
          ("age", { type := some "integer", minimum := some 0, maximum := some 120 }) =
        ["age is required."] ∧
      "age is required." ∈ validate_data exampleSchema []) ∧
    ("age" ∉ exampleSchema.required →
      fieldContribution exampleSchema []
          ("age", { type := some "integer", minimum := some 0, maximum := some 120 }) = [])) :=
  ⟨required_field_completeness exampleSchema [] "name" _ (by decide) rfl,
   required_field_completeness exampleSchema [] "age" _ (by decide) rfl⟩

/-- If some declared field's spec lacks the `type` key, building the
baseline record fails (at that field, or at an earlier failing field). -/
lemma buildValidCase_error_of_missing_type (props : List (String × RuleSpec))
    (f : String) (spec : RuleSpec) (hmem : (f, spec) ∈ props)
    (hty : spec.type = none) :
    ∃ e, buildValidCase props = Except.error e := by
  induction props with
  | nil => cases hmem
  | cons p rest ih =>
    obtain ⟨g, sp⟩ := p
    cases hb : baselineValue sp with
    | error e => exact ⟨e, by simp only [buildValidCase, hb]; rfl⟩
    | ok v =>
      rcases List.mem_cons.mp hmem with heq | hmemr
      · injection heq with h1 h2
        subst h1; subst h2
        have : baselineValue spec = Except.error "KeyError: type" := by
          simp only [baselineValue, specType, hty]
          rfl
        rw [this] at hb
        cases hb
      · obtain ⟨e, he⟩ := ih hmemr
        exact ⟨e, by simp only [buildValidCase, hb, he]; rfl⟩

/-- Claim C10: `generate_test_cases` reads `spec['type']` unguarded, so a
schema with a declared field lacking `type` makes it fail before producing
any case, while `validate_field` simply skips the type check for such a
field; at the minimal such schema the failure is precisely the key-lookup
error. -/
theorem generate_requires_type_key (schema : Schema) (f : String)
    (spec : RuleSpec) (hmem : (f, spec) ∈ schema.properties)
    (hty : spec.type = none) :
    (∃ e, generate_test_cases schema = Except.error e) ∧
    (∀ v, validate_field f v spec =
      checkMinLength f v spec ++ checkMaxLength f v spec ++
      checkPattern f v spec ++ checkEnum f v spec ++ checkMinimum f v spec ++
      checkMaximum f v spec) ∧
    generate_test_cases { properties := [("f", {})], required := [] } =
      Except.error "KeyError: type" := by
  refine ⟨?_, ?_, rfl⟩
  · obtain ⟨e, he⟩ := buildValidCase_error_of_missing_type schema.properties f spec hmem hty
    exact ⟨e, by simp only [generate_test_cases, he]; rfl⟩
  · intro v
    rw [validate_field_eq, checkType_nil_of_none f v spec hty]
    rfl

/-- Witness for Claim C10 at the one-field schema whose spec is empty. -/
theorem generate_requires_type_key_applied :
    (∃ e, generate_test_cases { properties := [("nick", {})], required := [] } =
      Except.error e) ∧
    (∀ v, validate_field "nick" v {} =
      checkMinLength "nick" v {} ++ checkMaxLength "nick" v {} ++
      checkPattern "nick" v {} ++ checkEnum "nick" v {} ++
      checkMinimum "nick" v {} ++ checkMaximum "nick" v {}) ∧
    generate_test_cases { properties := [("f", {})], required := [] } =
      Except.error "KeyError: type" :=
  generate_requires_type_key { properties := [("nick", {})], required := [] }
    "nick" {} (by simp) rfl

/-- A schema whose only field carries just min_length and enum constraints
(both inside the claimed self-consistency set), yet whose generated
baseline violates min_length: the baseline takes the first enum element,
which is shorter than `min_length`. -/
def enumMinLenSchema : Schema :=
  { properties :=
      [("color", { type := some "string", min_length := some 5, enum := some [.str "a"] })],
    required := [] }

/-- Claim C2 counterexample: the generated baseline of `enumMinLenSchema`
fails validation on a field constrained only by min_length and enum. -/
theorem baseline_violates_min_length_with_enum :
    generate_test_cases enumMinLenSchema =
      Except.ok
        [("Valid case", [("color", .str "a")]),
         ("color: too short", [("color", .str "")]),
         ("color: not in enum", [("color", .str "not-in-enum")])] ∧
    validate_data enumMinLenSchema [("color", .str "a")] =
      ["color should be at least 5 characters."] :=
  ⟨rfl, rfl⟩

/-- The spec domain on which the generated baseline value really does
satisfy all of the field's own constraints: strings with no max_length,
pattern or enum; integers with no enum or maximum; booleans with no enum
and no numeric bounds (the numeric checks do fire on booleans); and
strings whose enum starts with a string and carry no other
string-applicable constraint. -/
def selfConsistent (spec : RuleSpec) : Prop :=
  (spec.type = some "string" ∧ spec.max_length = none ∧ spec.pattern = none ∧
    spec.enum = none) ∨
  (spec.type = some "integer" ∧ spec.enum = none ∧ spec.maximum = none) ∨
  (spec.type = some "boolean" ∧ spec.enum = none ∧ spec.minimum = none ∧
    spec.maximum = none) ∨
  (spec.type = some "string" ∧ spec.min_length = none ∧ spec.max_length = none ∧
    spec.pattern = none ∧ ∃ t es, spec.enum = some (Value.str t :: es))

lemma xRepeat_length (m : Int) : (xRepeat m).length = m.toNat := by
  simp [xRepeat, String.length]

/-- On a self-consistent spec the baseline value exists and passes every
check of `validate_field`. -/
lemma baselineValue_selfConsistent (spec : RuleSpec) (hq : selfConsistent spec) :
    ∃ v, baselineValue spec = Except.ok v ∧ ∀ f, validate_field f v spec = [] := by
  rcases hq with ⟨hty, hxl, hpt, hen⟩ | ⟨hty, hen, hmax⟩ |
    ⟨hty, hen, hmin, hmax⟩ | ⟨hty, hml, hxl, hpt, t0, es, hen⟩
  · rcases hml : spec.min_length with _ | m
    · refine ⟨.str "test", ?_, fun f => ?_⟩
      · simp only [baselineValue, specType, hty, hen, hml]; rfl
      · rw [validate_field_eq, checkMinimum_nil f (.str "test") spec rfl,
          checkMaximum_nil f (.str "test") spec rfl]
        simp [checkType, checkMinLength, checkMaxLength, checkPattern,
          checkEnum, hty, hml, hxl, hpt, hen, isinstance_str]
    · refine ⟨.str (xRepeat m), ?_, fun f => ?_⟩
      · simp only [baselineValue, specType, hty, hen, hml]; rfl
      · rw [validate_field_eq, checkMinimum_nil f (.str (xRepeat m)) spec rfl,
          checkMaximum_nil f (.str (xRepeat m)) spec rfl]
        have hlt : ¬(((xRepeat m).length : Int) < m) := by
          rw [xRepeat_length]
          exact not_lt.mpr (Int.self_le_toNat m)
        simp [checkType, checkMinLength, checkMaxLength, checkPattern,
          checkEnum, hty, hml, hxl, hpt, hen, isinstance_str, hlt]
  · rcases hmi : spec.minimum with _ | k
    · refine ⟨.int 0, ?_, fun f => ?_⟩
      · simp only [baselineValue, specType, hty, hmi]; rfl
      · rw [validate_field_eq, checkMinLength_nil f (.int 0) spec rfl,
          checkMaxLength_nil f (.int 0) spec rfl, checkPattern_nil f (.int 0) spec rfl]
        simp [checkType, checkEnum, checkMinimum, checkMaximum, hty, hen,
          hmi, hmax, isinstance_int]
    · refine ⟨.int k, ?_, fun f => ?_⟩
      · simp only [baselineValue, specType, hty, hmi]; rfl
      · rw [validate_field_eq, checkMinLength_nil f (.int k) spec rfl,
          checkMaxLength_nil f (.int k) spec rfl, checkPattern_nil f (.int k) spec rfl]
        simp [checkType, checkEnum, checkMinimum, checkMaximum, hty, hen,
          hmi, hmax, isinstance_int, pyIntValue]
  · refine ⟨.bool true, ?_, fun f => ?_⟩
    · simp only [baselineValue, specType, hty]; rfl
    · rw [validate_field_eq, checkMinLength_nil f (.bool true) spec rfl,
        checkMaxLength_nil f (.bool true) spec rfl, checkPattern_nil f (.bool true) spec rfl]
      simp [checkType, checkEnum, checkMinimum, checkMaximum, hty, hen,
        hmin, hmax, isinstance_bool]
  · refine ⟨.str t0, ?_, fun f => ?_⟩
    · simp only [baselineValue, specType, hty, hen]; rfl
    · rw [validate_field_eq, checkMinimum_nil f (.str t0) spec rfl,
        checkMaximum_nil f (.str t0) spec rfl]
      simp [checkType, checkMinLength, checkMaxLength, checkPattern,
        checkEnum, hty, hml, hxl, hpt, hen, isinstance_str, pyEq]

/-- The baseline record binds each declared field (keys unique) to its
spec's baseline value. -/
lemma buildValidCase_lookup (props : List (String × RuleSpec)) (valid : Record)
    (hnd : (props.map Prod.fst).Nodup) (f : String) (spec : RuleSpec)
    (hmem : (f, spec) ∈ props) (hok : buildValidCase props = Except.ok valid) :
    ∃ v, baselineValue spec = Except.ok v ∧ List.lookup f valid = some v := by
  induction props generalizing valid with
  | nil => cases hmem
  | cons p rest ih =>
    obtain ⟨g, sp⟩ := p
    cases hb : baselineValue sp with
    | error e =>
      rw [show buildValidCase ((g, sp) :: rest) = Except.error e by
        simp only [buildValidCase, hb]; rfl] at hok
      cases hok
    | ok v0 =>
      cases ht : buildValidCase rest with
      | error e =>
        rw [show buildValidCase ((g, sp) :: rest) = Except.error e by
          simp only [buildValidCase, hb, ht]; rfl] at hok
        cases hok
      | ok tail =>
        have hval : valid = (g, v0) :: tail := by
          rw [show buildValidCase ((g, sp) :: rest) = Except.ok ((g, v0) :: tail) by
            simp only [buildValidCase, hb, ht]; rfl] at hok
          injection hok with h
          exact h.symm
        rcases List.mem_cons.mp hmem with heq | hmemr
        · injection heq with h1 h2
          subst h1; subst h2
          exact ⟨v0, hb, by rw [hval]; simp [List.lookup]⟩
        · have hnd2 : (rest.map Prod.fst).Nodup := by
            rw [List.map_cons, List.nodup_cons] at hnd
            exact hnd.2
          have hgmem : g ∉ rest.map Prod.fst := by
            rw [List.map_cons, List.nodup_cons] at hnd
            exact hnd.1
          have hne : f ≠ g := by
            intro h
            subst h
            exact hgmem (List.mem_map_of_mem Prod.fst hmemr)
          obtain ⟨v, hbv, hlk⟩ := ih tail hnd2 hmemr ht
          refine ⟨v, hbv, ?_⟩
          rw [hval]
          simpa [List.lookup, beq_eq_false_iff_ne.mpr hne] using hlk

/-- Claim C2 (amended): the baseline case of `generate_test_cases`, fed
back through the record validator, yields no violation for every field
whose spec lies in the `selfConsistent` domain: strings with only
min_length (and numeric keys, which are skipped), integers with only
minimum (and string keys), booleans with no enum and no numeric bounds,
and strings whose enum leads with a string value; pattern fields and the
remaining enum shapes are exempt. -/
theorem baseline_self_consistency (schema : Schema) (f : String)
    (spec : RuleSpec) (valid : Record)
    (hnd : (schema.properties.map Prod.fst).Nodup)
    (hmem : (f, spec) ∈ schema.properties)
    (hok : buildValidCase schema.properties = Except.ok valid)
    (hq : selfConsistent spec) :
    ∃ v, List.lookup f valid = some v ∧ validate_field f v spec = [] ∧
      fieldContribution schema valid (f, spec) = [] := by
  obtain ⟨v, hbv, hnil⟩ := baselineValue_selfConsistent spec hq
  obtain ⟨v2, hbv2, hlk⟩ := buildValidCase_lookup schema.properties valid hnd f spec hmem hok
  rw [hbv] at hbv2
  have hv : v = v2 := by injection hbv2
  subst hv
  refine ⟨v, hlk, hnil f, ?_⟩
  simp [fieldContribution, hlk, hnil f]

/-- Witness for the amended Claim C2 at the example schema's `name` field,
whose only constraint is min_length. -/
theorem baseline_self_consistency_applied :
    ∃ v, List.lookup "name" [("name", .str "xx"), ("age", .int 0)] = some v ∧
      validate_field "name" v { type := some "string", min_length := some 2 } = [] ∧
      fieldContribution exampleSchema [("name", .str "xx"), ("age", .int 0)]
        ("name", { type := some "string", min_length := some 2 }) = [] :=
  baseline_self_consistency exampleSchema "name" _ _ (by decide)
    (by simp [exampleSchema]) rfl (Or.inl ⟨rfl, rfl, rfl, rfl⟩)

/-- Sequencing from a success reduces to the continuation. -/
lemma exceptOkBind {α β : Type} (a : α) (k : α → Except String β) :
    (Except.ok a : Except String α) >>= k = k a := rfl

/-- Looking up any other key is unaffected by overwriting `g` in place. -/
lemma lookup_map_overwrite (r : Record) (g g2 : String) (v : Value)
    (hne : g2 ≠ g) :
    List.lookup g2 (r.map (fun p => if p.1 = g then (g, v) else p)) =
      List.lookup g2 r := by
  induction r with
  | nil => rfl
  | cons p rest ih =>
    obtain ⟨k, b⟩ := p
    by_cases hp : k = g
    · subst hp
      rw [List.map_cons,
        show (if ((k, b) : String × Value).1 = k then (k, v) else (k, b)) = (k, v) from
          if_pos rfl]
      simp [List.lookup, beq_eq_false_iff_ne.mpr hne, ih]
    · rw [List.map_cons,
        show (if ((k, b) : String × Value).1 = g then (g, v) else (k, b)) = (k, b) from
          if_neg hp]
      simp [List.lookup, ih]

/-- Looking up any other key is unaffected by appending a `g` entry. -/
lemma lookup_append_single (r : Record) (g g2 : String) (v : Value)
    (hne : g2 ≠ g) :
    List.lookup g2 (r ++ [(g, v)]) = List.lookup g2 r := by
  induction r with
  | nil => simp [List.lookup, beq_eq_false_iff_ne.mpr hne]
  | cons p rest ih =>
    obtain ⟨k, b⟩ := p
    simp [List.lookup, ih]

/-- Python dict assignment `d[g] = v` leaves every other key's value
unchanged. -/
lemma dictSet_lookup_ne (r : Record) (g : String) (v : Value) (g2 : String)
    (hne : g2 ≠ g) :
    List.lookup g2 (dictSet r g v) = List.lookup g2 r := by
  unfold dictSet
  split
  · exact lookup_map_overwrite r g g2 v hne
  · exact lookup_append_single r g g2 v hne

/-- Every variant derived for field `f` is the baseline with only `f`
overwritten. -/
lemma variantCases_shape (valid : Record) (f : String) (spec : RuleSpec)
    (t : String) (c : String × Record)
    (hc : c ∈ variantCases valid f spec t) :
    ∃ v, c.2 = dictSet valid f v := by
  simp only [variantCases, List.mem_append] at hc
  rcases hc with (hc | hc) | hc
  · by_cases ht : t = "string"
    · rw [if_pos ht, List.mem_append] at hc
      rcases hc with hc | hc
      · rcases hml : spec.min_length with _ | m <;> rw [hml] at hc
        · cases hc
        · rw [List.mem_singleton] at hc
          exact ⟨.str "", by rw [hc]⟩
      · rcases hpt : spec.pattern with _ | r <;> rw [hpt] at hc
        · cases hc
        · rw [List.mem_singleton] at hc
          exact ⟨.str "invalid", by rw [hc]⟩
    · rw [if_neg ht] at hc
      cases hc
  · by_cases ht : t = "integer"
    · rw [if_pos ht, List.mem_append] at hc
      rcases hc with hc | hc
      · rcases hmi : spec.minimum with _ | m <;> rw [hmi] at hc
        · cases hc
        · rw [List.mem_singleton] at hc
          exact ⟨.int (m - 1), by rw [hc]⟩
      · rcases hma : spec.maximum with _ | m <;> rw [hma] at hc
        · cases hc
        · rw [List.mem_singleton] at hc
          exact ⟨.int (m + 1), by rw [hc]⟩
    · rw [if_neg ht] at hc
      cases hc
  · rcases hen : spec.enum with _ | es <;> rw [hen] at hc
    · cases hc
    · rw [List.mem_singleton] at hc
      exact ⟨.str "not-in-enum", by rw [hc]⟩

/-- Every case produced by the variants loop is the baseline with a single
field overwritten. -/
lemma buildVariants_shape (valid : Record) (props : List (String × RuleSpec))
    (vs : List (String × Record)) (hok : buildVariants valid props = Except.ok vs)
    (c : String × Record) (hc : c ∈ vs) :
    ∃ g v, c.2 = dictSet valid g v := by
  induction props generalizing vs with
  | nil =>
    have hvs : vs = [] := by
      simp only [buildVariants] at hok
      injection hok with h
      exact h.symm
    subst hvs
    cases hc
  | cons p rest ih =>
    obtain ⟨g, sp⟩ := p
    cases hv : variantsFor valid g sp with
    | error e =>
      rw [show buildVariants valid ((g, sp) :: rest) = Except.error e by
        simp only [buildVariants, hv]; rfl] at hok
      cases hok
    | ok cs1 =>
      cases ht : buildVariants valid rest with
      | error e =>
        rw [show buildVariants valid ((g, sp) :: rest) = Except.error e by
          simp only [buildVariants, hv, ht]; rfl] at hok
        cases hok
      | ok cs2 =>
        have hvs : vs = cs1 ++ cs2 := by
          rw [show buildVariants valid ((g, sp) :: rest) = Except.ok (cs1 ++ cs2) by
            simp only [buildVariants, hv, ht]; rfl] at hok
          injection hok with h
          exact h.symm
        subst hvs
        rcases List.mem_append.mp hc with h1 | h2
        · cases hst : specType sp with
          | error e =>
            rw [show variantsFor valid g sp = Except.error e by
              simp only [variantsFor, hst]; rfl] at hv
            cases hv
          | ok t =>
            have hcs1 : cs1 = variantCases valid g sp t := by
              rw [show variantsFor valid g sp = Except.ok (variantCases valid g sp t) by
                simp only [variantsFor, hst]; rfl] at hv
              injection hv with h
              exact h.symm
            subst hcs1
            obtain ⟨v, hform⟩ := variantCases_shape valid g sp t c h1
            exact ⟨g, v, hform⟩
        · exact ih cs2 ht h2

/-- Claim C9: the first generated case is exactly the baseline record, and
every invalid variant is a copy of the baseline with a single target field
overwritten — its lookup agrees with the baseline on every other field.
(The embedding is pure, so the baseline and the validated records are
never mutated.) -/
theorem generator_variants_frame_property (schema : Schema)
    (cs : List (String × Record))
    (hok : generate_test_cases schema = Except.ok cs) :
    ∃ valid, buildValidCase schema.properties = Except.ok valid ∧
      cs.head? = some ("Valid case", valid) ∧
      ∀ c ∈ cs.tail, ∃ g v, c.2 = dictSet valid g v ∧
        ∀ g2, g2 ≠ g → List.lookup g2 c.2 = List.lookup g2 valid := by
  cases hv : buildValidCase schema.properties with
  | error e =>
    rw [show generate_test_cases schema = Except.error e by
      simp only [generate_test_cases, hv]; rfl] at hok
    cases hok
  | ok valid =>
    cases hb : buildVariants valid schema.properties with
    | error e =>
      rw [show generate_test_cases schema = Except.error e by
        simp only [generate_test_cases, hv, exceptOkBind, hb]; rfl] at hok
      cases hok
    | ok vars =>
      have hcs : cs = ("Valid case", valid) :: vars := by
        rw [show generate_test_cases schema = Except.ok (("Valid case", valid) :: vars) by
          simp only [generate_test_cases, hv, exceptOkBind, hb]] at hok
        injection hok with h
        exact h.symm
      subst hcs
      refine ⟨valid, rfl, rfl, ?_⟩
      intro c hc
      obtain ⟨g, v, hform⟩ := buildVariants_shape valid schema.properties vars hb c hc
      refine ⟨g, v, hform, fun g2 hne => ?_⟩
      rw [hform]
      exact dictSet_lookup_ne valid g v g2 hne

/-- Witness for Claim C9 at the example schema's concrete case list. -/
theorem generator_frame_property_applied :
    ∃ valid, buildValidCase exampleSchema.properties = Except.ok valid ∧
      ([("Valid case", [("name", Value.str "xx"), ("age", Value.int 0)]),
        ("name: too short", [("name", Value.str ""), ("age", Value.int 0)]),
        ("age: below minimum", [("name", Value.str "xx"), ("age", Value.int (-1))]),
        ("age: above maximum", [("name", Value.str "xx"), ("age", Value.int 121)])]
        : List (String × Record)).head? = some ("Valid case", valid) ∧
      ∀ c ∈ ([("Valid case", [("name", Value.str "xx"), ("age", Value.int 0)]),
        ("name: too short", [("name", Value.str ""), ("age", Value.int 0)]),
        ("age: below minimum", [("name", Value.str "xx"), ("age", Value.int (-1))]),
        ("age: above maximum", [("name", Value.str "xx"), ("age", Value.int 121)])]
        : List (String × Record)).tail, ∃ g v, c.2 = dictSet valid g v ∧
        ∀ g2, g2 ≠ g → List.lookup g2 c.2 = List.lookup g2 valid :=
  generator_variants_frame_property exampleSchema _ rfl
